import Mathlib

/-!
# Verification of the Google-Drive-Downloader job orchestration core

Shallow embedding of the progress parser / process supervisor
(`src/services/gdown.ts`, second variant, the one the routes import),
the task registry (`src/services/taskManager.ts`) and the scheduler /
route layer (`src/routes/download.ts`).

Modelling conventions:
* The regex layer is abstracted: a raw output chunk is represented by the
  result of the source's regex matches on it (`StdoutChunk`, `StderrChunk`);
  plain `String.includes` checks are modelled by an executable substring
  test on the accumulated text.
* JavaScript numbers that only ever hold non-negative integers are `Nat`;
  `lastPercentage` is an `Int` because it is initialised to `-1`.
* `Math.round` on a non-negative rational `n / d` is `⌊n/d + 1/2⌋`, which
  for naturals is `(2*n + d) / (2*d)` in `Nat` division.
-/

namespace GDD

/-! ## Substring test (models JavaScript `String.includes`) -/

/-- Does `pat` occur as a contiguous substring of `s`?  Models
`s.includes(pat)` from JavaScript, used on the accumulated stderr text. -/
def listHasSub (pat : List Char) : List Char → Bool
  | [] => pat.isEmpty
  | c :: cs => pat.isPrefixOf (c :: cs) || listHasSub pat cs

/-- The test `strHasSub s pat` models the JavaScript `s.includes(pat)`. -/
def strHasSub (s pat : String) : Bool :=
  listHasSub pat.data s.data

/-- JavaScript `Math.round (n / d)` for naturals `n`, `d` (`d > 0`):
`⌊n/d + 1/2⌋ = (2n + d) / (2d)` in natural division. -/
def jsRound (n d : Nat) : Nat :=
  (2 * n + d) / (2 * d)

/-! ## Data model of the progress stream -/

/-- Values of `DownloadProgress.status` from `src/types.ts`. -/
inductive DlStatus
  | scanning
  | downloading
  | completed
  | error
deriving DecidableEq, Repr

/-- The `DownloadProgress` snapshot record from `src/types.ts`. -/
structure DownloadProgress where
  current : Nat
  total : Nat
  currentFile : String
  percentage : Nat
  status : DlStatus
deriving DecidableEq, Repr

/-- Events emitted by `GdownService` (an `EventEmitter`). -/
inductive GEvent
  | progress (p : DownloadProgress)
  | warning (w : String)
  | complete
  | error (msg : String)
deriving DecidableEq, Repr

/-- The closure state of `GdownService.downloadFolder`
(`src/services/gdown.ts` lines 175-181): the local variables captured by
the stdout/stderr/close handlers. -/
structure GdownState where
  currentFile : String
  current : Nat
  total : Nat
  lastPercentage : Int
  fileList : List String
  lastFileProgress : Nat
  scanningComplete : Bool
  errorBuffer : String
deriving DecidableEq, Repr

/-- Initial closure state at `downloadFolder` entry. -/
def initGdown : GdownState :=
  { currentFile := ""
    current := 0
    total := 0
    lastPercentage := -1
    fileList := []
    lastFileProgress := 0
    scanningComplete := false
    errorBuffer := "" }

/-- One stdout `data` chunk, represented by the result of the six regex
matches the handler performs on it (gdown.ts lines 192-247). -/
structure StdoutChunk where
  /-- capture of `/Downloading\s+(\d+)\/(\d+)/i` : (current, total). -/
  progressMatch : Option (Nat × Nat)
  /-- capture of `/Downloading\.\.\.\s+(.+)/i`, already trimmed. -/
  fileMatch : Option String
  /-- whether `/From:\s+https:\/\/drive\.google\.com/i` matched. -/
  fromMatch : Bool
  /-- capture of `/(\d+)%\|/` : the per-file percentage. -/
  barMatch : Option Nat
  /-- whether the chunk contains `Building directory structure completed`. -/
  buildingComplete : Bool
  /-- capture of `/Processing file\s+\S+\s+(.+)/i`, already trimmed. -/
  processingMatch : Option String
deriving DecidableEq, Repr

/-- A stdout chunk with no pattern match. -/
def emptyOut : StdoutChunk :=
  { progressMatch := none, fileMatch := none, fromMatch := false
    barMatch := none, buildingComplete := false, processingMatch := none }

/-- One stderr `data` chunk: its raw text (accumulated into `errorBuffer`
and scanned with `includes`) together with the capture of
`/Skipping already downloaded file\s+(.+)/i`. -/
structure StderrChunk where
  text : String
  skippingMatch : Option String
deriving DecidableEq, Repr

/-- The percentage computation of the stdout handler
(gdown.ts lines 269-290). -/
def computePercentage (scanningComplete : Bool) (total current lastFileProgress : Nat) :
    Nat :=
  if !scanningComplete then 0
  else if total > 0 then
    if current = total then 100
    else min (jsRound (100 * current + min lastFileProgress 99) total) 99
  else 0

/-- The snapshot `status` computed by the stdout handler: `scanning` until
`scanningComplete`, then `downloading` (the handler never emits
`completed`, that is done by the close handler). -/
def stdoutStatus (scanningComplete : Bool) : DlStatus :=
  if scanningComplete then DlStatus.downloading else DlStatus.scanning

/-- The six pattern blocks of the stdout handler (gdown.ts lines 188-265):
returns the updated closure state (everything except `lastPercentage`)
together with the `hasUpdate` flag. -/
def stdoutCore (st : GdownState) (c : StdoutChunk) : GdownState × Bool :=
  -- Pattern 1: "Downloading X/Y"
  let p1 : Nat × Nat × Bool :=
    match c.progressMatch with
    | some (nc, nt) =>
        if nc ≠ st.current ∨ nt ≠ st.total then (nc, nt, true)
        else (st.current, st.total, false)
    | none => (st.current, st.total, false)
  let current := p1.1
  let total := p1.2.1
  let hasUpdate := p1.2.2
  -- Pattern 2: "Downloading... <file>"
  let p2 : String × Nat × Bool :=
    match c.fileMatch with
    | some f =>
        if f ≠ st.currentFile then (f, current + 1, true)
        else (st.currentFile, current, hasUpdate)
    | none => (st.currentFile, current, hasUpdate)
  let currentFile := p2.1
  let current := p2.2.1
  let hasUpdate := p2.2.2
  -- Pattern 3: "From: https://drive.google.com"
  let p3 : Nat × Bool :=
    if c.fromMatch then (if total = 0 then (1, true) else (total, hasUpdate))
    else (total, hasUpdate)
  let total := p3.1
  let hasUpdate := p3.2
  -- Pattern 4: per-file progress bar
  let p4 : Nat × Bool × Nat :=
    match c.barMatch with
    | some fp =>
        if fp = 100 ∧ st.lastFileProgress < 100 then (current + 1, true, fp)
        else (current, hasUpdate, fp)
    | none => (current, hasUpdate, st.lastFileProgress)
  let current := p4.1
  let hasUpdate := p4.2.1
  let lastFileProgress := p4.2.2
  -- Pattern 5: "Building directory structure completed"
  let p5 : Bool × Bool :=
    if c.buildingComplete then (true, true) else (st.scanningComplete, hasUpdate)
  let scanningComplete := p5.1
  let hasUpdate := p5.2
  -- Pattern 6: "Processing file <id> <name>"
  let p6 : List String × Nat × Bool :=
    match c.processingMatch with
    | some f =>
        if f ∈ st.fileList then (st.fileList, total, hasUpdate)
        else (st.fileList ++ [f], (st.fileList ++ [f]).length, true)
    | none => (st.fileList, total, hasUpdate)
  let fileList := p6.1
  let total := p6.2.1
  let hasUpdate := p6.2.2
  let p7 : String × Nat × Bool :=
    match c.processingMatch with
    | some f =>
        if f ≠ currentFile then (f, 0, true)
        else (currentFile, lastFileProgress, hasUpdate)
    | none => (currentFile, lastFileProgress, hasUpdate)
  let currentFile := p7.1
  let lastFileProgress := p7.2.1
  let hasUpdate := p7.2.2
  ({ currentFile := currentFile
     current := current
     total := total
     lastPercentage := st.lastPercentage
     fileList := fileList
     lastFileProgress := lastFileProgress
     scanningComplete := scanningComplete
     errorBuffer := st.errorBuffer }, hasUpdate)

/-- The stdout `data` handler (gdown.ts lines 184-304): pattern blocks,
percentage computation, then a single deduplicated `progress` emission. -/
def handleStdout (st : GdownState) (c : StdoutChunk) : GdownState × List GEvent :=
  let r := stdoutCore st c
  let st1 := r.1
  let hasUpdate := r.2
  let percentage :=
    computePercentage st1.scanningComplete st1.total st1.current st1.lastFileProgress
  if hasUpdate ∨ (percentage : Int) ≠ st.lastPercentage then
    ({ st1 with lastPercentage := (percentage : Int) },
     [GEvent.progress
        { current := st1.current
          total := st1.total
          currentFile := st1.currentFile
          percentage := percentage
          status := stdoutStatus st1.scanningComplete }])
  else (st1, [])

/-- Split a character list at every separator, JavaScript `split`
semantics: `"a//b"` gives `["a", "", "b"]` and `""` gives `[""]`. -/
def splitChars (p : Char → Bool) : List Char → List (List Char)
  | [] => [[]]
  | ch :: cs =>
      let r := splitChars p cs
      if p ch then [] :: r
      else
        match r with
        | [] => [[ch]]
        | x :: xs => (ch :: x) :: xs

/-- The last path component of a file path, as computed by
`filePath.split(/[/\\]/).pop() || filePath` (gdown.ts line 322). -/
def lastComponent (fp : String) : String :=
  let parts := (splitChars (fun ch => ch = '/' || ch = '\\') fp.data).map List.asString
  match parts.getLast? with
  | some s => if s = "" then fp else s
  | none => fp

/-- The quota-limit warning message (gdown.ts line 363). -/
def quotaWarnMsg : String :=
  "QUOTA_EXCEEDED:Google Drive 流量限制：請更新 Cookie 或等待 24 小時後重試"

/-- The permission warning message (gdown.ts line 368). -/
def permWarnMsg : String :=
  "PERMISSION_DENIED:無法存取檔案：請檢查連結權限是否設為「知道連結的任何人」"

/-- The quota-limit fatal message of the close handler (gdown.ts line 415). -/
def quotaFatalMsg : String :=
  "QUOTA_EXCEEDED:Google Drive 流量限制：請建立副本或等待 24 小時後重試"

/-- The permission fatal message of the close handler (gdown.ts line 418). -/
def permFatalMsg : String :=
  "PERMISSION_DENIED:無法存取檔案：請檢查連結權限是否設為「知道連結的任何人」"

/-- The quota-limit stderr pattern. -/
def quotaPat : String := "Too many users have viewed or downloaded"

/-- The stderr `data` handler (gdown.ts lines 309-370): accumulates the
error buffer, handles the skipped-file and `Download completed` patterns,
emits at most one `progress` (note: without touching `lastPercentage`)
followed by at most one `warning`. -/
def handleStderr (st : GdownState) (c : StderrChunk) : GdownState × List GEvent :=
  let errorBuffer := st.errorBuffer ++ c.text
  -- Pattern: "Skipping already downloaded file <path>"
  let p1 : List String × Nat × String × Nat × Bool :=
    match c.skippingMatch with
    | some fp =>
        let fileName := lastComponent fp
        let fl :=
          if fileName ∈ st.fileList then (st.fileList, st.total)
          else (st.fileList ++ [fileName], (st.fileList ++ [fileName]).length)
        if fileName ≠ st.currentFile then
          (fl.1, fl.2, "[已跳過] " ++ fileName, st.current + 1, true)
        else (fl.1, fl.2, st.currentFile, st.current, false)
    | none => (st.fileList, st.total, st.currentFile, st.current, false)
  let fileList := p1.1
  let total := p1.2.1
  let currentFile := p1.2.2.1
  let current := p1.2.2.2.1
  let hasUpdate := p1.2.2.2.2
  -- Pattern: "Download completed"
  let p2 : Nat × Bool :=
    if strHasSub c.text "Download completed" then
      (if total > 0 ∧ current < total then (total, true) else (current, hasUpdate))
    else (current, hasUpdate)
  let current := p2.1
  let hasUpdate := p2.2
  let st1 : GdownState :=
    { currentFile := currentFile
      current := current
      total := total
      lastPercentage := st.lastPercentage
      fileList := fileList
      lastFileProgress := st.lastFileProgress
      scanningComplete := st.scanningComplete
      errorBuffer := errorBuffer }
  let progEvents : List GEvent :=
    if hasUpdate then
      [GEvent.progress
        { current := current
          total := total
          currentFile := currentFile
          percentage := if total > 0 then jsRound (100 * current) total else 0
          status := DlStatus.downloading }]
    else []
  let warnEvents : List GEvent :=
    if strHasSub c.text quotaPat then [GEvent.warning quotaWarnMsg]
    else if strHasSub c.text "Failed to retrieve file url" ∨
            strHasSub c.text "Cannot retrieve the public link" then
      [GEvent.warning permWarnMsg]
    else []
  (st1, progEvents ++ warnEvents)

/-- The fatal error message chosen by the close handler
(gdown.ts lines 411-421). -/
def closeErrorMsg (errorBuffer : String) (code : Int) : String :=
  if strHasSub errorBuffer quotaPat then quotaFatalMsg
  else if strHasSub errorBuffer "Failed to retrieve" ∨
          strHasSub errorBuffer "Cannot retrieve the public link" then permFatalMsg
  else if errorBuffer ≠ "" then errorBuffer
  else "Process exited with code " ++ toString code

/-- The `close` handler (gdown.ts lines 373-425).  A `null` exit code means
the process was killed by `cancel`: nothing is emitted.  Otherwise success
is `code === 0 || (total > 0 && current === total)`. -/
def handleClose (st : GdownState) (code : Option Int) : List GEvent :=
  match code with
  | none => []
  | some c =>
      let allFilesDownloaded := st.total > 0 ∧ st.current = st.total
      if c = 0 ∨ allFilesDownloaded then
        [GEvent.progress
          { current := st.total, total := st.total, currentFile := ""
            percentage := 100, status := DlStatus.completed },
         GEvent.complete]
      else
        [GEvent.progress
          { current := st.current, total := st.total, currentFile := st.currentFile
            percentage := 0, status := DlStatus.error },
         GEvent.error (closeErrorMsg st.errorBuffer c)]

/-! ## A single job run: chunks in arrival order, then process exit -/

/-- A raw output chunk tagged with its stream. -/
inductive Chunk
  | out (c : StdoutChunk)
  | err (c : StderrChunk)
deriving Repr

/-- Run one tagged chunk through the corresponding handler. -/
def stepChunk (st : GdownState) : Chunk → GdownState × List GEvent
  | Chunk.out c => handleStdout st c
  | Chunk.err c => handleStderr st c

/-- Process a list of chunks in order, concatenating the emitted events. -/
def runChunks : GdownState → List Chunk → GdownState × List GEvent
  | st, [] => (st, [])
  | st, c :: cs =>
      let r := stepChunk st c
      let rest := runChunks r.1 cs
      (rest.1, r.2 ++ rest.2)

/-- A complete job: process all chunks, then the process exits with `code`
(`none` = killed by cancel). -/
def runJob (chunks : List Chunk) (code : Option Int) : List GEvent :=
  let r := runChunks initGdown chunks
  r.2 ++ handleClose r.1 code

/-- The progress snapshots of an event sequence, in emission order. -/
def snapshots (evs : List GEvent) : List DownloadProgress :=
  evs.filterMap fun e =>
    match e with
    | GEvent.progress p => some p
    | _ => none

/-- Did the event list report success (a `complete` event)? -/
def isSuccess (evs : List GEvent) : Bool :=
  evs.any fun e =>
    match e with
    | GEvent.complete => true
    | _ => false

/-- The fatal error message reported by the event list, if any. -/
def errorOf (evs : List GEvent) : Option String :=
  evs.findSome? fun e =>
    match e with
    | GEvent.error m => some m
    | _ => none

/-! ## Task registry (`src/services/taskManager.ts`) -/

/-- Values of `DownloadTask.status` (taskManager.ts line 7).  The spec's
`running` is the code's `downloading` and the spec's `failed` is the
code's `error`. -/
inductive TStatus
  | pending
  | downloading
  | completed
  | error
  | cancelled
deriving DecidableEq, Repr

/-- The `DownloadTask` record (taskManager.ts lines 3-13).  `progress` is
the spec's `progressPercent`, `currentFile` the spec's `currentItem`,
`error` the spec's `lastError`. -/
structure DownloadTask where
  id : String
  url : String
  outputDir : String
  status : TStatus
  progress : Nat
  currentFile : String
  createdAt : Nat
  completedAt : Option Nat
  error : Option String
deriving DecidableEq, Repr

/-- A `Partial<DownloadTask>` update record as used by the callers in
`src/routes/download.ts`.  `errorGiven` models `'error' in updates`;
`error := none` with `errorGiven := true` is `error: undefined`. -/
structure TaskUpdate where
  status : Option TStatus
  progress : Option Nat
  currentFile : Option String
  completedAt : Option Nat
  errorGiven : Bool
  error : Option String
deriving DecidableEq, Repr

/-- An update record with no field present. -/
def emptyUpd : TaskUpdate :=
  { status := none, progress := none, currentFile := none, completedAt := none
    errorGiven := false, error := none }

/-- Models `Object.assign(task, updates)` followed by the explicit
`delete task.error` when `error` is present and `undefined`
(taskManager.ts lines 134-139). -/
def applyUpd (t : DownloadTask) (u : TaskUpdate) : DownloadTask :=
  { t with
    status := u.status.getD t.status
    progress := u.progress.getD t.progress
    currentFile := u.currentFile.getD t.currentFile
    completedAt := match u.completedAt with | some v => some v | none => t.completedAt
    error := if u.errorGiven then u.error else t.error }

/-- The in-memory map, the durable file contents and the dirty flag of a
`TaskManager` (taskManager.ts lines 18-20).  The map is a `List` in
insertion order with unique ids (JavaScript `Map` semantics). -/
structure TMState where
  tasks : List DownloadTask
  file : List DownloadTask
  needsSave : Bool
deriving DecidableEq, Repr

/-- A fresh, empty task manager over an empty durable file. -/
def initTM : TMState :=
  { tasks := [], file := [], needsSave := false }

/-- Models `saveTasks` (taskManager.ts lines 73-84): write all tasks except the
cancelled ones to the durable file. -/
def saveFile (tasks : List DownloadTask) : List DownloadTask :=
  tasks.filter fun t => t.status ≠ TStatus.cancelled

/-- JavaScript `Map.set` semantics: replace the entry with the same key in place,
else append. -/
def mapSet (tasks : List DownloadTask) (t : DownloadTask) : List DownloadTask :=
  if tasks.any fun t0 => t0.id = t.id then
    tasks.map fun t0 => if t0.id = t.id then t else t0
  else tasks ++ [t]

/-- Models `createTask` (taskManager.ts lines 111-125): builds a fresh `pending`
task, stores it under its derived id (overwriting any existing entry) and
saves.  The id derivation (`generateTaskId`: first
`/[\/=]([a-zA-Z0-9_-]{20,})/` capture of the url, else a random token) and
`Date.now()` are abstracted as the parameters `id` and `createdAt`. -/
def tmCreateTask (tm : TMState) (id url outputDir : String) (createdAt : Nat) :
    TMState × DownloadTask :=
  let task : DownloadTask :=
    { id := id, url := url, outputDir := outputDir
      status := TStatus.pending, progress := 0, currentFile := ""
      createdAt := createdAt, completedAt := none, error := none }
  let tasks := mapSet tm.tasks task
  ({ tm with tasks := tasks, file := saveFile tasks }, task)

/-- Models `updateTask` (taskManager.ts lines 131-158): merge the update into the
task if present; if the task's status is now `cancelled`, delete it and
save; otherwise save when `saveToFile` or a status was given, else mark
dirty. -/
def tmUpdateTask (tm : TMState) (id : String) (u : TaskUpdate) (saveToFile : Bool) :
    TMState :=
  match tm.tasks.find? fun t => t.id = id with
  | none => tm
  | some t0 =>
      let t1 := applyUpd t0 u
      let tasks1 := tm.tasks.map fun t => if t.id = id then applyUpd t u else t
      if t1.status = TStatus.cancelled then
        let tasks2 := tasks1.filter fun t => t.id ≠ id
        { tm with tasks := tasks2, file := saveFile tasks2 }
      else if saveToFile ∨ u.status.isSome then
        { tm with tasks := tasks1, file := saveFile tasks1 }
      else
        { tm with tasks := tasks1, needsSave := true }

/-- Models `deleteTask` (taskManager.ts lines 186-192). -/
def tmDeleteTask (tm : TMState) (id : String) : TMState :=
  if tm.tasks.any fun t => t.id = id then
    let tasks := tm.tasks.filter fun t => t.id ≠ id
    { tm with tasks := tasks, file := saveFile tasks }
  else tm

/-! ## Scheduler and route layer (`src/routes/download.ts`) -/

/-- A message broadcast to the SSE clients. -/
inductive OutEvent
  | taskStart (id : String)
  | progress (id : String) (p : DownloadProgress)
  | warning (id : String) (w : String)
  | taskComplete (id : String)
  | taskError (id : String) (msg : String)
  | cancelledNote
deriving DecidableEq, Repr

/-- The module-level mutable state of `src/routes/download.ts`: the task
manager, the download queue, the active-download id set, the per-task
`GdownService` closure states, and the log of broadcast messages. -/
structure ServerState where
  tm : TMState
  queue : List String
  active : List String
  services : List (String × GdownState)
  events : List OutEvent
deriving Repr

/-- The server right after startup with an empty registry. -/
def initServer : ServerState :=
  { tm := initTM, queue := [], active := [], services := [], events := [] }

/-- One url of a batch submission, with the derived task id and the
submission time abstracted out of `generateTaskId` / `Date.now()`. -/
structure BatchItem where
  id : String
  url : String
  outputDir : String
  createdAt : Nat
deriving Repr

/-- Models `POST /batch` (download.ts lines 90-103): for every url create a task
and push its id on the queue. -/
def batchOp (s : ServerState) (items : List BatchItem) : ServerState :=
  items.foldl
    (fun st it =>
      let r := tmCreateTask st.tm it.id it.url it.outputDir it.createdAt
      { st with tm := r.1, queue := st.queue ++ [r.2.id] })
    s

/-- The admission update (download.ts line 391). -/
def admitUpd : TaskUpdate := { emptyUpd with status := some TStatus.downloading }

/-- One iteration of the admission loop body
(download.ts lines 371-407): pop the queue head; skip missing, completed
or already-active tasks; otherwise mark the task `downloading`, broadcast
`task_start`, add it to the active set and start a `GdownService` for it. -/
def admitOp (s : ServerState) : ServerState :=
  match s.queue with
  | [] => s
  | id :: rest =>
      let s1 := { s with queue := rest }
      match s.tm.tasks.find? fun t => t.id = id with
      | none => s1
      | some t =>
          if t.status = TStatus.completed then s1
          else if id ∈ s.active then s1
          else
            { s1 with
              tm := tmUpdateTask s1.tm id admitUpd true
              events := s1.events ++ [OutEvent.taskStart id]
              active := s1.active ++ [id]
              services := s1.services ++ [(id, initGdown)] }

/-- The progress-listener update (download.ts lines 440-443). -/
def progressUpd (p : DownloadProgress) : TaskUpdate :=
  { emptyUpd with progress := some p.percentage, currentFile := some p.currentFile }

/-- The complete-listener update (download.ts lines 460-464). -/
def completeUpd (now : Nat) : TaskUpdate :=
  { emptyUpd with
    status := some TStatus.completed, progress := some 100, completedAt := some now }

/-- The error-listener update (download.ts lines 500-503). -/
def errorUpd (m : String) : TaskUpdate :=
  { emptyUpd with status := some TStatus.error, errorGiven := true, error := some m }

/-- The per-event reaction of `downloadTask`'s listeners
(download.ts lines 438-517): `progress` updates the task without saving,
`complete` and `error` set the terminal status, save, and release the
service and the active slot.  `completedAt` (`Date.now()`) is abstracted
as `now`. -/
def applyGEvent (s : ServerState) (id : String) (now : Nat) (e : GEvent) : ServerState :=
  match e with
  | GEvent.progress p =>
      { s with
        tm := tmUpdateTask s.tm id (progressUpd p) false
        events := s.events ++ [OutEvent.progress id p] }
  | GEvent.warning w =>
      { s with events := s.events ++ [OutEvent.warning id w] }
  | GEvent.complete =>
      { s with
        tm := tmUpdateTask s.tm id (completeUpd now) true
        events := s.events ++ [OutEvent.taskComplete id]
        services := s.services.filter fun p => p.1 ≠ id
        active := s.active.filter fun i => i ≠ id }
  | GEvent.error m =>
      { s with
        tm := tmUpdateTask s.tm id (errorUpd m) true
        events := s.events ++ [OutEvent.taskError id m]
        services := s.services.filter fun p => p.1 ≠ id
        active := s.active.filter fun i => i ≠ id }

/-- Apply a list of supervisor events in order. -/
def applyGEvents (s : ServerState) (id : String) (now : Nat) : List GEvent → ServerState
  | [] => s
  | e :: es => applyGEvents (applyGEvent s id now e) id now es

/-- A stdout or stderr chunk arriving for the job `id`: run the parser on
that job's closure state and apply the emitted events. -/
def chunkOp (s : ServerState) (id : String) (c : Chunk) : ServerState :=
  match s.services.lookup id with
  | none => s
  | some g =>
      let r := stepChunk g c
      let s1 :=
        { s with services := s.services.map fun p => if p.1 = id then (p.1, r.1) else p }
      applyGEvents s1 id 0 r.2

/-- The process of job `id` exits with `code` (`none` = killed): run the
close handler and apply the emitted events. -/
def closeOp (s : ServerState) (id : String) (code : Option Int) (now : Nat) : ServerState :=
  match s.services.lookup id with
  | none => s
  | some g => applyGEvents s id now (handleClose g code)

/-- The per-task update of `POST /cancel` (download.ts lines 217-220). -/
def cancelUpd : TaskUpdate :=
  { emptyUpd with
    status := some TStatus.cancelled, errorGiven := true,
    error := some "Download cancelled by user" }

/-- Models `POST /cancel` (download.ts lines 204-239): when services are active,
cancel them all, mark every `downloading` task `cancelled`, clear the
queue and active set, and broadcast a `cancelled` note. -/
def cancelOp (s : ServerState) : ServerState :=
  if s.services.isEmpty then s
  else
    let ids := (s.tm.tasks.filter fun t => t.status = TStatus.downloading).map fun t => t.id
    let tm := ids.foldl (fun acc i => tmUpdateTask acc i cancelUpd true) s.tm
    { s with
      tm := tm, services := [], queue := [], active := [],
      events := s.events ++ [OutEvent.cancelledNote] }

/-- The per-task update of `POST /restart` (download.ts lines 268-272):
status back to `pending`, `error: undefined`, progress and current file
untouched. -/
def restartUpd : TaskUpdate :=
  { emptyUpd with status := some TStatus.pending, errorGiven := true, error := none }

/-- Is a task picked up by `POST /restart` (download.ts line 267)? -/
def restartable (t : DownloadTask) : Bool :=
  t.status = TStatus.error ∨ t.status = TStatus.downloading ∨ t.status = TStatus.cancelled

/-- Models `POST /restart` (download.ts lines 245-296): cancel all services,
clear queue and active set, then reset every `error`/`downloading`/
`cancelled` task to `pending` and re-enqueue it; returns the new state and
the restarted count. -/
def restartOp (s : ServerState) : ServerState × Nat :=
  let s1 := { s with services := [], queue := [], active := [] }
  let ids := (s.tm.tasks.filter restartable).map fun t => t.id
  let s2 := ids.foldl
    (fun st i =>
      { st with tm := tmUpdateTask st.tm i restartUpd true, queue := st.queue ++ [i] })
    s1
  (s2, ids.length)

/-- Models `DELETE /tasks/:id` (download.ts lines 346-355). -/
def deleteOp (s : ServerState) (id : String) : ServerState :=
  { s with tm := tmDeleteTask s.tm id }

/-- The operations that drive the server from the outside: HTTP requests,
scheduler iterations, and process output/exit callbacks.  They execute
non-overlapping on the single event-loop control flow. -/
inductive Op
  | batch (items : List BatchItem)
  | admitStep
  | chunk (id : String) (c : Chunk)
  | close (id : String) (code : Option Int) (now : Nat)
  | cancel
  | restart
  | delete (id : String)

/-- Apply one operation. -/
def applyOp (s : ServerState) : Op → ServerState
  | Op.batch items => batchOp s items
  | Op.admitStep => admitOp s
  | Op.chunk id c => chunkOp s id c
  | Op.close id code now => closeOp s id code now
  | Op.cancel => cancelOp s
  | Op.restart => (restartOp s).1
  | Op.delete id => deleteOp s id

/-- Apply a sequence of operations from the empty startup state. -/
def runOps (ops : List Op) : ServerState :=
  ops.foldl applyOp initServer

/-! ## Process supervisor query (modelled from the spec) -/

/-- Modelled from the spec: `GdownService.getCurrentProgress` is called by
the subscribe-time replay (download.ts lines 150-158) but is not defined
in any variant of `src/services/gdown.ts` in this repository.  Spec §4.2:
`currentProgress(handle) → Snapshot | none`; the handle holds the last
known progress snapshot while the OS process is attached, and `cancel`
"immediately releases the OS process handle; a subsequent
`currentProgress` returns none". -/
structure SupervisorHandle where
  processActive : Bool
  lastProgress : Option DownloadProgress
deriving DecidableEq, Repr

/-- Modelled from the spec: the `currentProgress` query — the last known
snapshot while a process is attached, `none` otherwise. -/
def getCurrentProgress (h : SupervisorHandle) : Option DownloadProgress :=
  if h.processActive then h.lastProgress else none

/-- Models `GdownService.cancel` (gdown.ts lines 452-457): kill the
process if attached and set the handle to `null`. -/
def svcCancel (h : SupervisorHandle) : SupervisorHandle :=
  { h with processActive := false }

/-- The subscribe-time replay of `GET /progress`
(download.ts lines 150-158): look up the active service of the current
task and query its current progress. -/
def subscribeReplay (services : List (String × SupervisorHandle)) (id : String) :
    Option DownloadProgress :=
  (services.lookup id).bind getCurrentProgress

/-! ## Spec-side formulations used to compare code against claim text -/

/-- The success condition exactly as claim C1 words it: exit code 0, or
`totalCount > 0` and `completedCount == totalCount` and no warning pattern
was seen in the diagnostic stream. -/
def c1ClaimSuccess (st : GdownState) (code : Int) : Bool :=
  code = 0 ∨
    (st.total > 0 ∧ st.current = st.total ∧
      ¬ (strHasSub st.errorBuffer quotaPat ∨
          strHasSub st.errorBuffer "Failed to retrieve file url" ∨
          strHasSub st.errorBuffer "Cannot retrieve the public link"))

/-- JavaScript `Math.round` on a non-negative rational, spec-side:
`⌊q + 1/2⌋`. -/
def specRound (q : ℚ) : ℕ :=
  ⌊q + 1 / 2⌋₊

/-- The percent formula exactly as claim C5 words it:
`min(99, round(100 * (completedCount + min(currentItemFraction, 0.99)) / totalCount))`
with `currentItemFraction = lastFileProgress / 100`. -/
def specPercent (total current lastFileProgress : ℕ) : ℕ :=
  min 99
    (specRound (100 * ((current : ℚ) + min ((lastFileProgress : ℚ) / 100) (99 / 100)) /
      (total : ℚ)))

/-! ## Helper lemmas about the registry operations -/

lemma applyUpd_id (t : DownloadTask) (u : TaskUpdate) : (applyUpd t u).id = t.id := rfl

lemma applyUpd_status_of_some {u : TaskUpdate} {st0 : TStatus} (h : u.status = some st0)
    (t : DownloadTask) : (applyUpd t u).status = st0 := by
  simp [applyUpd, h]

/-- Updating an absent id is a no-op. -/
lemma tmUpdateTask_absent (tm : TMState) (id : String) (u : TaskUpdate) (b : Bool)
    (h : ∀ t ∈ tm.tasks, t.id ≠ id) : tmUpdateTask tm id u b = tm := by
  have hf : tm.tasks.find? (fun t => t.id = id) = none := by
    rw [List.find?_eq_none]
    intro t ht
    simpa using h t ht
  simp [tmUpdateTask, hf]

/-- Removing the updated id from the updated list gives back the other
original entries. -/
lemma filterNe_map_update (ts : List DownloadTask) (id : String)
    (f : DownloadTask → DownloadTask) (hf : ∀ t, (f t).id = t.id) :
    ((ts.map fun t => if t.id = id then f t else t).filter fun t => t.id ≠ id)
      = ts.filter fun t => t.id ≠ id := by
  induction ts with
  | nil => rfl
  | cons t ts ih =>
      simp only [ne_eq, decide_not] at ih ⊢
      by_cases h : t.id = id
      · simp [h, hf, ih]
      · simp [h, ih]

/-- Shape of `updateTask` when the task is present and becomes
`cancelled`: immediate deletion, then a save of the remaining tasks. -/
lemma tmUpdateTask_cancel (tm : TMState) (id : String) (u : TaskUpdate) (b : Bool)
    (t0 : DownloadTask) (h : tm.tasks.find? (fun t => t.id = id) = some t0)
    (hc : (applyUpd t0 u).status = TStatus.cancelled) :
    tmUpdateTask tm id u b =
      { tm with
        tasks := tm.tasks.filter fun t => t.id ≠ id
        file := saveFile (tm.tasks.filter fun t => t.id ≠ id) } := by
  have key := filterNe_map_update tm.tasks id (fun t => applyUpd t u) (fun t => applyUpd_id t u)
  simp only [ne_eq, decide_not] at key
  simp [tmUpdateTask, h, hc, key]

/-- Shape of `updateTask` when the task is present and the update carries
a non-`cancelled` status: in-place merge plus a save. -/
lemma tmUpdateTask_status (tm : TMState) (id : String) (u : TaskUpdate) (b : Bool)
    (t0 : DownloadTask) (h : tm.tasks.find? (fun t => t.id = id) = some t0)
    (st0 : TStatus) (hs : u.status = some st0) (hne : st0 ≠ TStatus.cancelled) :
    tmUpdateTask tm id u b =
      { tm with
        tasks := tm.tasks.map fun t => if t.id = id then applyUpd t u else t
        file := saveFile (tm.tasks.map fun t => if t.id = id then applyUpd t u else t) } := by
  have hst : (applyUpd t0 u).status = st0 := applyUpd_status_of_some hs t0
  simp [tmUpdateTask, h, hst, hne, hs]

/-- Shape of `updateTask` for a pure progress update (`saveToFile` false,
no status): in-place merge plus the dirty flag. -/
lemma tmUpdateTask_progress (tm : TMState) (id : String) (u : TaskUpdate)
    (t0 : DownloadTask) (h : tm.tasks.find? (fun t => t.id = id) = some t0)
    (hs : u.status = none) (hc : t0.status ≠ TStatus.cancelled) :
    tmUpdateTask tm id u false =
      { tm with
        tasks := tm.tasks.map fun t => if t.id = id then applyUpd t u else t
        needsSave := true } := by
  have hst : (applyUpd t0 u).status = t0.status := by simp [applyUpd, hs]
  simp [tmUpdateTask, h, hst, hc, hs]

/-! ## Helper lemmas about the percentage formula -/

lemma specRound_div_nat (n d : ℕ) (hd : 0 < d) :
    specRound ((n : ℚ) / (d : ℚ)) = jsRound n d := by
  have h2 : (n : ℚ) / d + 1 / 2 = ((2 * n + d : ℕ) : ℚ) / ((2 * d : ℕ) : ℚ) := by
    have hd' : (d : ℚ) ≠ 0 := Nat.cast_ne_zero.mpr hd.ne'
    push_cast
    field_simp
    ring
  rw [specRound, h2, Nat.floor_div_eq_div]
  rfl

lemma specPercent_arg_eq (total current lfp : ℕ) :
    100 * ((current : ℚ) + min ((lfp : ℚ) / 100) (99 / 100)) / (total : ℚ)
      = ((100 * current + min lfp 99 : ℕ) : ℚ) / (total : ℚ) := by
  have hmin : min ((lfp : ℚ) / 100) (99 / 100) = ((min lfp 99 : ℕ) : ℚ) / 100 := by
    push_cast
    rw [min_div_div_right (by norm_num : (0 : ℚ) ≤ 100)]
  rw [hmin]
  push_cast
  ring_nf

/-- The code's integer percentage computation equals the spec's
rational-round formula in the transferring phase. -/
lemma computePercentage_formula (total current lfp : ℕ) (h : 0 < total)
    (hlt : current < total) :
    computePercentage true total current lfp = specPercent total current lfp := by
  unfold computePercentage specPercent
  rw [specPercent_arg_eq, specRound_div_nat _ _ h]
  simp [h, hlt.ne, min_comm]

/-! ## Concrete objects used in witnesses and counterexamples -/

/-- A batch submission item with derived id `A`. -/
def itA : BatchItem := { id := "A", url := "u", outputDir := "d", createdAt := 0 }

/-- A stderr chunk reporting an already-downloaded (skipped) file. -/
def skipChunk : StderrChunk := { text := "", skippingMatch := some "/x/a.txt" }

/-- A stdout chunk carrying the discovery-complete marker, a `Processing
file` line for `fileA`, and a 50% progress bar. -/
def procChunk : StdoutChunk :=
  { emptyOut with
    processingMatch := some "fileA", buildingComplete := true, barMatch := some 50 }

/-- A stdout chunk carrying only a 50% progress bar. -/
def barChunk : StdoutChunk := { emptyOut with barMatch := some 50 }

/-- A parser state at exit: one file discovered and completed, with the
quota warning pattern in the accumulated stderr text. -/
def c1State : GdownState :=
  { initGdown with total := 1, current := 1, errorBuffer := quotaPat }

/-- A `downloading` task used in concrete registry states. -/
def taskA : DownloadTask :=
  { id := "A", url := "u", outputDir := "d", status := TStatus.downloading
    progress := 50, currentFile := "f", createdAt := 0, completedAt := none
    error := none }

/-- A registry holding just `taskA`, mirrored in the durable file. -/
def tmA : TMState := { tasks := [taskA], file := [taskA], needsSave := false }

/-! ## Claim C1 -/

/-- Claim C1, as stated, is false: the close handler classifies the exit
as success whenever `total > 0 ∧ current = total`, even when a warning
pattern was seen in the diagnostic stream (gdown.ts lines 382-386 never
consult `errorBuffer` on the success path).  Concretely, `c1State` saw the
quota pattern and the process exits with code 1, yet `complete` is
emitted although the claim's success condition is false.  Moreover, when
the process fails with an empty diagnostic buffer the message is the
generic `Process exited with code N`, not the (empty) accumulated
diagnostic text. -/
theorem c1_close_counterexample :
    isSuccess (handleClose c1State (some 1)) = true
    ∧ c1ClaimSuccess c1State 1 = false
    ∧ errorOf (handleClose initGdown (some 1)) = some "Process exited with code 1"
    ∧ initGdown.errorBuffer = "" := by
  refine ⟨by decide, by decide, by decide, rfl⟩

/-- Claim C1 (amended): on process exit with a non-null code, the job is
classified as success iff the exit code is 0 or (`totalCount > 0` and
`completedCount = totalCount`), *regardless of warnings*; every other
exit is failed with the message cascade of `closeErrorMsg`: the quota
warning promoted to fatal if the diagnostic buffer contains the quota
pattern, else the permission warning promoted to fatal if it contains a
permission pattern, else the accumulated diagnostic text if non-empty,
else a generic exit-code message. -/
theorem c1_close_classification (st : GdownState) (code : Int) :
    (isSuccess (handleClose st (some code))
        = decide (code = 0 ∨ (0 < st.total ∧ st.current = st.total)))
    ∧ (isSuccess (handleClose st (some code)) = false →
        errorOf (handleClose st (some code)) = some (closeErrorMsg st.errorBuffer code))
    ∧ (isSuccess (handleClose st (some code)) = true →
        errorOf (handleClose st (some code)) = none) := by
  unfold handleClose
  by_cases h : code = 0 ∨ (st.total > 0 ∧ st.current = st.total)
  · simp [h, isSuccess, errorOf]
  · simp [h, isSuccess, errorOf]

/-- Witness for C1 (amended) at a concrete failing exit. -/
theorem c1_close_classification_witness :
    errorOf (handleClose initGdown (some 1))
      = some (closeErrorMsg initGdown.errorBuffer 1) :=
  (c1_close_classification initGdown 1).2.1 (by decide)

/-! ## Claim C5 -/

/-- Claim C5: for every stdout chunk processed in any parser state, the
emitted snapshot's percent is pinned to 0 while discovery is not complete;
once discovery is complete with `totalCount > 0`, the percent equals
`min(99, round(100 * (completedCount + min(currentItemFraction, 0.99)) / totalCount))`
while `completedCount < totalCount` (where `currentItemFraction` is the
last per-file percentage over 100), and equals 100 when
`completedCount = totalCount`.  The counts are those of the post-chunk
state `st'`, which are exactly the values the handler read when emitting. -/
theorem c5_percent_formula (st : GdownState) (c : StdoutChunk) (st' : GdownState)
    (evs : List GEvent) (p : DownloadProgress)
    (h : handleStdout st c = (st', evs)) (hp : GEvent.progress p ∈ evs) :
    (st'.scanningComplete = false → p.percentage = 0)
    ∧ (st'.scanningComplete = true → 0 < st'.total → st'.current < st'.total →
        p.percentage = specPercent st'.total st'.current st'.lastFileProgress)
    ∧ (st'.scanningComplete = true → 0 < st'.total → st'.current = st'.total →
        p.percentage = 100) := by
  unfold handleStdout at h
  dsimp only [] at h
  split at h
  case isTrue hcond =>
    injection h with h1 h2
    subst h1
    subst h2
    simp only [List.mem_singleton, GEvent.progress.injEq] at hp
    subst hp
    refine ⟨?_, ?_, ?_⟩
    · intro hsc
      rw [hsc]
      simp [computePercentage]
    · intro hsc hpos hlt
      rw [hsc]
      exact computePercentage_formula _ _ _ hpos hlt
    · intro hsc hpos he
      rw [hsc]
      dsimp only at hpos he
      simp [computePercentage, hpos, he]
  case isFalse hcond =>
    injection h with h1 h2
    subst h2
    simp at hp

/-- Witness for C5 at a concrete chunk: `procChunk` on the initial state
emits a snapshot, and the formula clauses apply to it. -/
theorem c5_percent_formula_witness :
    ((handleStdout initGdown procChunk).1.scanningComplete = false →
      ({ current := 0, total := 1, currentFile := "fileA", percentage := 0,
         status := DlStatus.downloading } : DownloadProgress).percentage = 0)
    ∧ ((handleStdout initGdown procChunk).1.scanningComplete = true →
        0 < (handleStdout initGdown procChunk).1.total →
        (handleStdout initGdown procChunk).1.current <
          (handleStdout initGdown procChunk).1.total →
        ({ current := 0, total := 1, currentFile := "fileA", percentage := 0,
           status := DlStatus.downloading } : DownloadProgress).percentage =
          specPercent (handleStdout initGdown procChunk).1.total
            (handleStdout initGdown procChunk).1.current
            (handleStdout initGdown procChunk).1.lastFileProgress)
    ∧ ((handleStdout initGdown procChunk).1.scanningComplete = true →
        0 < (handleStdout initGdown procChunk).1.total →
        (handleStdout initGdown procChunk).1.current =
          (handleStdout initGdown procChunk).1.total →
        ({ current := 0, total := 1, currentFile := "fileA", percentage := 0,
           status := DlStatus.downloading } : DownloadProgress).percentage = 100) :=
  c5_percent_formula initGdown procChunk
    (handleStdout initGdown procChunk).1 (handleStdout initGdown procChunk).2
    { current := 0, total := 1, currentFile := "fileA", percentage := 0,
      status := DlStatus.downloading }
    rfl (by decide)

/-! ## Claim C7 -/

/-- Claim C7, as stated, is false: in a single job with no return to the
discovery phase, the emitted percent sequence can decrease.  Concretely,
after discovery completes and `fileA` reaches 50%, a non-zero exit with
`current < total` emits the error snapshot with percent 0
(gdown.ts lines 402-409): the snapshots are 0, 50, then 0 again, and both
the 50% and the final 0% snapshots are outside the discovery phase. -/
theorem c7_counterexample :
    snapshots (runJob [Chunk.out procChunk, Chunk.out barChunk] (some 1))
      = [{ current := 0, total := 1, currentFile := "fileA", percentage := 0,
           status := DlStatus.downloading },
         { current := 0, total := 1, currentFile := "fileA", percentage := 50,
           status := DlStatus.downloading },
         { current := 0, total := 1, currentFile := "fileA", percentage := 0,
           status := DlStatus.error }]
    ∧ (0 : Nat) < 50
    ∧ DlStatus.error ≠ DlStatus.scanning
    ∧ DlStatus.downloading ≠ DlStatus.scanning := by
  refine ⟨by decide, by decide, by decide, by decide⟩

/-- Claim C7 (amended): the emitted percent is *not* globally
non-decreasing: it drops to 0 on the failure-exit snapshot, and item
discovery or a current-item change resets the per-item fraction.  What
does hold is monotonicity of the percent computation itself: with
discovery complete and `totalCount` fixed, the percent does not decrease
when `completedCount` (staying ≤ `totalCount`) and the per-item progress
do not decrease. -/
theorem c7_percent_monotone (total c1 c2 l1 l2 : ℕ) (h : 0 < total)
    (hc : c1 ≤ c2) (hct : c2 ≤ total) (hl : l1 ≤ l2) :
    computePercentage true total c1 l1 ≤ computePercentage true total c2 l2 := by
  unfold computePercentage
  simp only [Bool.not_true, Bool.false_eq_true, if_false, h, if_pos]
  rcases eq_or_lt_of_le hct with h2 | h2
  · subst h2
    rw [if_pos rfl]
    by_cases h1 : c1 = c2
    · rw [if_pos h1]
    · rw [if_neg h1]
      exact le_trans (min_le_right _ _) (by norm_num)
  · have h1 : c1 ≠ total := by omega
    have h2' : c2 ≠ total := by omega
    simp only [h1, h2', if_false]
    have hnum : 2 * (100 * c1 + min l1 99) + total ≤ 2 * (100 * c2 + min l2 99) + total := by
      have : min l1 99 ≤ min l2 99 := min_le_min hl le_rfl
      omega
    exact min_le_min (Nat.div_le_div_right hnum) le_rfl

/-- Witness for C7 (amended) at concrete values. -/
theorem c7_percent_monotone_witness :
    computePercentage true 4 1 20 ≤ computePercentage true 4 2 30 :=
  c7_percent_monotone 4 1 2 20 30 (by decide) (by decide) (by decide) (by decide)

/-! ## Claim C8 -/

/-- Claim C8, as stated, is false: on the transition to `cancelled` the
task is deleted immediately, but the flush that follows happens *after*
the deletion and `saveTasks` filters cancelled tasks out anyway
(taskManager.ts lines 76-78, 143-147), so the cancelled state is never
written to stable storage.  Concretely, cancelling `taskA` leaves both
the registry and the durable file empty — no cancelled record was ever
flushed. -/
theorem c8_cancel_counterexample :
    (tmUpdateTask tmA "A" cancelUpd true).tasks = []
    ∧ (tmUpdateTask tmA "A" cancelUpd true).file = []
    ∧ (¬ ∃ t ∈ (tmUpdateTask tmA "A" cancelUpd true).file,
        t.status = TStatus.cancelled) := by
  refine ⟨by decide, by decide, by decide⟩

/-- Claim C8 (amended): for every task present in the registry, an update
carrying status `cancelled` deletes the task from the in-memory registry
immediately, and the registry is flushed once right after the deletion;
the flush excludes cancelled tasks, so the durable file never contains a
cancelled record. -/
theorem c8_cancel_cleanup (tm : TMState) (id : String) (u : TaskUpdate) (b : Bool)
    (t0 : DownloadTask) (h : tm.tasks.find? (fun t => t.id = id) = some t0)
    (hu : u.status = some TStatus.cancelled) :
    (tmUpdateTask tm id u b).tasks = tm.tasks.filter (fun t => t.id ≠ id)
    ∧ (tmUpdateTask tm id u b).file = saveFile ((tmUpdateTask tm id u b).tasks)
    ∧ ∀ t ∈ (tmUpdateTask tm id u b).file, t.status ≠ TStatus.cancelled := by
  have hc : (applyUpd t0 u).status = TStatus.cancelled := applyUpd_status_of_some hu t0
  rw [tmUpdateTask_cancel tm id u b t0 h hc]
  refine ⟨rfl, rfl, ?_⟩
  intro t ht
  simp only [saveFile, List.mem_filter] at ht
  simpa using ht.2

/-- Witness for C8 (amended) at the concrete registry `tmA`. -/
theorem c8_cancel_cleanup_witness :
    (tmUpdateTask tmA "A" cancelUpd true).tasks
        = tmA.tasks.filter (fun t => t.id ≠ "A")
    ∧ (tmUpdateTask tmA "A" cancelUpd true).file
        = saveFile ((tmUpdateTask tmA "A" cancelUpd true).tasks)
    ∧ ∀ t ∈ (tmUpdateTask tmA "A" cancelUpd true).file,
        t.status ≠ TStatus.cancelled :=
  c8_cancel_cleanup tmA "A" cancelUpd true taskA (by decide) rfl

/-! ## Claim C9 -/

/-- Claim C9 (against the spec-modelled `getCurrentProgress`, which no
variant of gdown.ts defines although download.ts line 152 calls it): the
`currentProgress` query returns the last known snapshot while the process
is attached, returns `none` when no process is attached or after `cancel`
(which is idempotent), and the subscribe-time replay obtains the current
active task's last snapshot through this query. -/
theorem c9_current_progress (h : SupervisorHandle)
    (svcs : List (String × SupervisorHandle)) (id : String)
    (hp : h.processActive = true) :
    getCurrentProgress h = h.lastProgress
    ∧ (∀ h2 : SupervisorHandle, h2.processActive = false → getCurrentProgress h2 = none)
    ∧ getCurrentProgress (svcCancel h) = none
    ∧ svcCancel (svcCancel h) = svcCancel h
    ∧ subscribeReplay ((id, h) :: svcs) id = getCurrentProgress h := by
  refine ⟨by simp [getCurrentProgress, hp], ?_, by simp [getCurrentProgress, svcCancel], rfl, ?_⟩
  · intro h2 h2p
    simp [getCurrentProgress, h2p]
  · simp [subscribeReplay, List.lookup]

/-- A concrete snapshot used by the C9 witness. -/
def snapW : DownloadProgress :=
  { current := 1, total := 2, currentFile := "f", percentage := 50
    status := DlStatus.downloading }

/-- A concrete active supervisor handle used by the C9 witness. -/
def handleW : SupervisorHandle := { processActive := true, lastProgress := some snapW }

/-- Witness for C9 at a concrete active handle. -/
theorem c9_current_progress_witness :
    getCurrentProgress handleW = handleW.lastProgress :=
  (c9_current_progress handleW [] "A" rfl).1

/-! ## Claim C10 -/

/-- Claim C10: updating an id that names no task in the registry is a
complete no-op — the in-memory map, the durable file and the dirty flag
are all left unchanged (and the operation is total, so no error is
raised). -/
theorem c10_update_absent (tm : TMState) (id : String) (u : TaskUpdate) (b : Bool)
    (h : ∀ t ∈ tm.tasks, t.id ≠ id) :
    tmUpdateTask tm id u b = tm
    ∧ (tmUpdateTask tm id u b).tasks = tm.tasks
    ∧ (tmUpdateTask tm id u b).file = tm.file
    ∧ (tmUpdateTask tm id u b).needsSave = tm.needsSave := by
  have := tmUpdateTask_absent tm id u b h
  exact ⟨this, by rw [this], by rw [this], by rw [this]⟩

/-- Witness for C10: updating the unknown id `B` in the registry `tmA`. -/
theorem c10_update_absent_witness :
    tmUpdateTask tmA "B" cancelUpd true = tmA :=
  (c10_update_absent tmA "B" cancelUpd true (by decide)).1

/-! ## Claim C2 -/

lemma mem_mapSet {ts : List DownloadTask} {t t' : DownloadTask} (h : t' ∈ mapSet ts t) :
    t' ∈ ts ∨ t' = t := by
  unfold mapSet at h
  split at h
  · obtain ⟨t0, ht0, heq⟩ := List.mem_map.mp h
    by_cases hid : t0.id = t.id
    · rw [if_pos hid] at heq
      exact Or.inr heq.symm
    · rw [if_neg hid] at heq
      exact Or.inl (heq ▸ ht0)
  · rcases List.mem_append.mp h with h1 | h1
    · exact Or.inl h1
    · simp only [List.mem_singleton] at h1
      exact Or.inr h1

lemma find?_map_overwrite {ts : List DownloadTask} {t : DownloadTask} {id : String}
    (hid0 : t.id = id) (h : ts.any (fun t0 => t0.id = id) = true) :
    ((ts.map fun t0 => if t0.id = id then t else t0).find? fun t0 => t0.id = id)
      = some t := by
  induction ts with
  | nil => simp at h
  | cons t0 ts ih =>
      by_cases hid : t0.id = id
      · simp [hid, hid0, List.find?]
      · simp only [List.any_cons, Bool.or_eq_true, decide_eq_true_eq] at h
        rcases h with h | h
        · exact absurd h hid
        · rw [List.map_cons, if_neg hid]
          have hpf : (decide (t0.id = id)) = false := decide_eq_false hid
          rw [List.find?_cons_of_neg _ (by simpa using hpf)]
          exact ih h

/-- The server state after job `A` was submitted, admitted and completed
successfully. -/
def sDone : ServerState := runOps [Op.batch [itA], Op.admitStep, Op.close "A" (some 0) 7]

/-- Resubmission of the same locator after completion. -/
def sRe : ServerState := batchOp sDone [itA]

/-- Claim C2, as stated, is false: `createTask` never consults the
registry before storing (taskManager.ts lines 111-125) and the batch
route enqueues unconditionally (download.ts lines 93-98).  Re-creating
the existing non-completed `taskA` (downloading at 50%) returns a fresh
`pending` record with progress 0, not the existing record; and
re-creating a completed task resets it to `pending` with progress 0 and
re-enqueues it — new work, no skip report. -/
theorem c2_counterexample :
    ((tmCreateTask tmA "A" "u" "d" 0).2 ≠ taskA
      ∧ (tmCreateTask tmA "A" "u" "d" 0).2.status = TStatus.pending
      ∧ (tmCreateTask tmA "A" "u" "d" 0).2.progress = 0
      ∧ taskA.status = TStatus.downloading ∧ taskA.progress = 50)
    ∧ (sDone.tm.tasks.map (fun t => t.status) = [TStatus.completed]
      ∧ sRe.tm.tasks.map (fun t => t.status) = [TStatus.pending]
      ∧ sRe.tm.tasks.map (fun t => t.progress) = [0]
      ∧ sRe.queue = ["A"]) := by
  exact ⟨⟨by decide, by decide, by decide, by decide, by decide⟩,
    by decide, by decide, by decide, by decide⟩

/-- Claim C2 (amended): resubmitting a locator whose derived id already
names a task keeps the registry single-entry per id (`createTask`
replaces the entry in place, the registry size is unchanged, other ids
are untouched), but the record is reinitialized rather than returned
unchanged: the stored and returned record is a fresh `pending` task with
progress 0, empty current item and no error — whatever the previous
status, including `completed`, which the batch route then re-enqueues
instead of skipping. -/
theorem c2_create_overwrites (tm : TMState) (id url dir : String) (ca : Nat)
    (h : tm.tasks.any (fun t0 => t0.id = id) = true) :
    ((tmCreateTask tm id url dir ca).1.tasks.length = tm.tasks.length)
    ∧ ((tmCreateTask tm id url dir ca).2 =
        { id := id, url := url, outputDir := dir, status := TStatus.pending
          progress := 0, currentFile := "", createdAt := ca, completedAt := none
          error := none })
    ∧ ((tmCreateTask tm id url dir ca).1.tasks.find? (fun t0 => t0.id = id)
        = some (tmCreateTask tm id url dir ca).2)
    ∧ (∀ t ∈ tm.tasks, t.id ≠ id → t ∈ (tmCreateTask tm id url dir ca).1.tasks) := by
  refine ⟨?_, rfl, ?_, ?_⟩
  · simp only [tmCreateTask, mapSet]
    rw [if_pos h]
    exact List.length_map _ _
  · simp only [tmCreateTask, mapSet]
    rw [if_pos h]
    exact find?_map_overwrite rfl h
  · intro t ht hne
    simp only [tmCreateTask, mapSet]
    rw [if_pos h]
    exact List.mem_map.mpr ⟨t, ht, by rw [if_neg hne]⟩

/-- Witness for C2 (amended) at the concrete registry `tmA`. -/
theorem c2_create_overwrites_witness :
    ((tmCreateTask tmA "A" "u" "d" 0).1.tasks.length = tmA.tasks.length)
    ∧ ((tmCreateTask tmA "A" "u" "d" 0).2 =
        { id := "A", url := "u", outputDir := "d", status := TStatus.pending
          progress := 0, currentFile := "", createdAt := 0, completedAt := none
          error := none })
    ∧ ((tmCreateTask tmA "A" "u" "d" 0).1.tasks.find? (fun t0 => t0.id = "A")
        = some (tmCreateTask tmA "A" "u" "d" 0).2)
    ∧ (∀ t ∈ tmA.tasks, t.id ≠ "A" → t ∈ (tmCreateTask tmA "A" "u" "d" 0).1.tasks) :=
  c2_create_overwrites tmA "A" "u" "d" 0 (by decide)

/-! ## Machinery for the cancel and restart routes -/

/-- Tasks are determined by their id when the registry's ids are nodup. -/
lemma id_inj {ts : List DownloadTask} (hnd : (ts.map fun t => t.id).Nodup)
    {t t' : DownloadTask} (ht : t ∈ ts) (ht' : t' ∈ ts) (h : t.id = t'.id) : t = t' :=
  List.inj_on_of_nodup_map hnd ht ht' h

/-- Folding the cancel update over a list of ids deletes exactly the
tasks with those ids. -/
lemma cancel_fold (ids : List String) (tm : TMState) :
    (ids.foldl (fun acc i => tmUpdateTask acc i cancelUpd true) tm).tasks
      = tm.tasks.filter fun t => ¬ t.id ∈ ids := by
  induction ids generalizing tm with
  | nil => simp
  | cons i ids ih =>
      rw [List.foldl_cons]
      rcases hfind : tm.tasks.find? (fun t => t.id = i) with _ | t0
      · have habs : ∀ t ∈ tm.tasks, t.id ≠ i := by
          intro t ht
          have := List.find?_eq_none.mp hfind t ht
          simpa using this
        rw [tmUpdateTask_absent tm i cancelUpd true habs, ih]
        apply List.filter_congr
        intro t ht
        have hne : t.id ≠ i := habs t ht
        simp [hne]
      · have hc : (applyUpd t0 cancelUpd).status = TStatus.cancelled :=
          applyUpd_status_of_some rfl t0
        rw [tmUpdateTask_cancel tm i cancelUpd true t0 hfind hc, ih]
        rw [List.filter_filter]
        apply List.filter_congr
        intro t ht
        by_cases h1 : t.id = i <;> simp [h1]

/-- The per-task reset performed by `POST /restart`. -/
def resetTask (t : DownloadTask) : DownloadTask :=
  { t with status := TStatus.pending, error := none }

lemma applyUpd_restartUpd (t : DownloadTask) : applyUpd t restartUpd = resetTask t := rfl

/-- Reset a task iff its id is in the restarted id set. -/
def restartFix (ids : List String) (t : DownloadTask) : DownloadTask :=
  if t.id ∈ ids then resetTask t else t

/-- Folding the restart update over a list of present ids resets exactly
the tasks with those ids and appends the ids to the queue. -/
lemma restart_fold (ids : List String) (s : ServerState)
    (hpres : ∀ i ∈ ids, ∃ t ∈ s.tm.tasks, t.id = i) :
    ((ids.foldl
      (fun st i =>
        { st with tm := tmUpdateTask st.tm i restartUpd true, queue := st.queue ++ [i] })
      s).tm.tasks = s.tm.tasks.map (restartFix ids))
    ∧ ((ids.foldl
      (fun st i =>
        { st with tm := tmUpdateTask st.tm i restartUpd true, queue := st.queue ++ [i] })
      s).queue = s.queue ++ ids) := by
  induction ids generalizing s with
  | nil =>
      refine ⟨?_, by simp⟩
      have h0 : ∀ t ∈ s.tm.tasks, restartFix [] t = t := by
        intro t ht
        simp [restartFix]
      simp only [List.foldl_nil]
      rw [List.map_congr_left h0, List.map_id']
  | cons i ids ih =>
      have hi : ∃ t ∈ s.tm.tasks, t.id = i := hpres i (by simp)
      have hrest : ∀ j ∈ ids, ∃ t ∈ s.tm.tasks, t.id = j := by
        intro j hj
        exact hpres j (by simp [hj])
      obtain ⟨t0, ht0, hid0⟩ := hi
      have hfind : ∃ t1, s.tm.tasks.find? (fun t => t.id = i) = some t1 := by
        rcases h : s.tm.tasks.find? (fun t => t.id = i) with _ | t1
        · exfalso
          have := List.find?_eq_none.mp h t0 ht0
          simp [hid0] at this
        · exact ⟨t1, h⟩
      obtain ⟨t1, hfind⟩ := hfind
      rw [List.foldl_cons]
      have hupd := tmUpdateTask_status s.tm i restartUpd true t1 hfind TStatus.pending
        rfl (by decide)
      set s1 : ServerState := { s with tm := tmUpdateTask s.tm i restartUpd true, queue := s.queue ++ [i] } with hs1def
      have hs1tasks : s1.tm.tasks
          = s.tm.tasks.map fun t => if t.id = i then resetTask t else t := by
        rw [hs1def]
        dsimp only
        rw [hupd]
        dsimp only
        apply List.map_congr_left
        intro t ht
        by_cases h1 : t.id = i <;> simp [h1, applyUpd_restartUpd]
      have hpres1 : ∀ j ∈ ids, ∃ t ∈ s1.tm.tasks, t.id = j := by
        intro j hj
        obtain ⟨t, ht, htj⟩ := hrest j hj
        refine ⟨if t.id = i then resetTask t else t, ?_, ?_⟩
        · rw [hs1tasks]
          exact List.mem_map.mpr ⟨t, ht, rfl⟩
        · by_cases h1 : t.id = i
          · rw [if_pos h1]
            exact htj
          · rw [if_neg h1]
            exact htj
      obtain ⟨ihT, ihQ⟩ := ih s1 hpres1
      constructor
      · rw [ihT, hs1tasks, List.map_map]
        apply List.map_congr_left
        intro t ht
        by_cases h1 : t.id = i
        · have hr : (resetTask t).id = t.id := rfl
          simp [Function.comp, restartFix, h1, hr, resetTask]
        · simp only [Function.comp_apply, if_neg h1]
          by_cases h2 : t.id ∈ ids <;> simp [restartFix, h1, h2]
      · rw [ihQ, hs1def]
        simp

/-! ## Claim C4 -/

/-- The server state with job `A` admitted and its process running. -/
def sAct : ServerState := runOps [Op.batch [itA], Op.admitStep]

/-- Claim C4: a process killed by cancel closes with a `null` exit code
and the close handler emits nothing at all (gdown.ts lines 376-379) — no
`complete`, no `error`, hence no `task_error`; the cancel route appends
only the `cancelled` note to the broadcast log, and every `downloading`
task is put through the `cancelled` transition (whose registry record is
then removed by the auto-cleanup of C8). -/
theorem c4_cancel_silent (st : GdownState) (s : ServerState)
    (hnd : (s.tm.tasks.map fun t => t.id).Nodup) (hs : s.services.isEmpty = false) :
    handleClose st none = []
    ∧ (cancelOp s).events = s.events ++ [OutEvent.cancelledNote]
    ∧ (∀ i m, OutEvent.taskError i m ∉ (cancelOp s).events.drop s.events.length)
    ∧ cancelUpd.status = some TStatus.cancelled
    ∧ (cancelOp s).tm.tasks = s.tm.tasks.filter fun t => t.status ≠ TStatus.downloading := by
  have hcx : cancelOp s =
      { s with
        tm := (((s.tm.tasks.filter fun t => t.status = TStatus.downloading).map
            fun t => t.id).foldl (fun acc i => tmUpdateTask acc i cancelUpd true) s.tm)
        services := [], queue := [], active := []
        events := s.events ++ [OutEvent.cancelledNote] } := by
    unfold cancelOp
    rw [if_neg (by simp [hs])]
  refine ⟨rfl, by rw [hcx], ?_, rfl, ?_⟩
  · intro i m
    rw [hcx]
    dsimp only
    rw [List.drop_left]
    simp
  · rw [hcx]
    dsimp only
    rw [cancel_fold]
    apply List.filter_congr
    intro t ht
    simp only [decide_not, decide_eq_true_eq, Bool.not_eq_true']
    by_cases hd : t.status = TStatus.downloading
    · have : t.id ∈ (s.tm.tasks.filter fun t => t.status = TStatus.downloading).map
          fun t => t.id :=
        List.mem_map.mpr ⟨t, List.mem_filter.mpr ⟨ht, by simp [hd]⟩, rfl⟩
      simp [this, hd]
    · have : ¬ t.id ∈ (s.tm.tasks.filter fun t => t.status = TStatus.downloading).map
          fun t => t.id := by
        intro hmem
        obtain ⟨t', ht', htid⟩ := List.mem_map.mp hmem
        obtain ⟨ht'm, ht's⟩ := List.mem_filter.mp ht'
        have : t' = t := id_inj hnd ht'm ht htid
        rw [this] at ht's
        simp [hd] at ht's
      simp [this, hd]

/-- Witness for C4 at the concrete running state `sAct`. -/
theorem c4_cancel_silent_witness :
    handleClose initGdown none = [] :=
  (c4_cancel_silent initGdown sAct (by decide) (by decide)).1

/-! ## Claim C6 -/

/-- Claim C6: `POST /restart` resets every task whose status is `error`
(the spec's failed), `downloading` (running) or `cancelled` to `pending`,
clearing the error field while leaving `progress` and `currentFile` at
their pre-restart values, re-enqueues exactly those tasks' ids, and
returns their count; tasks in other statuses are unchanged. -/
theorem c6_restart (s : ServerState)
    (hnd : (s.tm.tasks.map fun t => t.id).Nodup) :
    ((restartOp s).1.tm.tasks
        = s.tm.tasks.map fun t => if restartable t then resetTask t else t)
    ∧ ((restartOp s).1.queue = (s.tm.tasks.filter restartable).map fun t => t.id)
    ∧ ((restartOp s).2 = (s.tm.tasks.filter restartable).length)
    ∧ (∀ t : DownloadTask, (resetTask t).status = TStatus.pending
        ∧ (resetTask t).error = none ∧ (resetTask t).progress = t.progress
        ∧ (resetTask t).currentFile = t.currentFile)
    ∧ (∀ t ∈ s.tm.tasks, restartable t = false →
        t ∈ (restartOp s).1.tm.tasks) := by
  have hpres : ∀ i ∈ (s.tm.tasks.filter restartable).map fun t => t.id,
      ∃ t ∈ s.tm.tasks, t.id = i := by
    intro i hi
    obtain ⟨t, ht, hti⟩ := List.mem_map.mp hi
    exact ⟨t, (List.mem_filter.mp ht).1, hti⟩
  obtain ⟨hT, hQ⟩ := restart_fold ((s.tm.tasks.filter restartable).map fun t => t.id)
    ({ s with services := [], queue := [], active := [] } : ServerState) hpres
  have hiff : ∀ t ∈ s.tm.tasks,
      restartFix ((s.tm.tasks.filter restartable).map fun t => t.id) t
        = if restartable t then resetTask t else t := by
    intro t ht
    by_cases hr : restartable t = true
    · have hmem : t.id ∈ (s.tm.tasks.filter restartable).map fun t => t.id :=
        List.mem_map.mpr ⟨t, List.mem_filter.mpr ⟨ht, hr⟩, rfl⟩
      simp [restartFix, hmem, hr]
    · have hmem : ¬ t.id ∈ (s.tm.tasks.filter restartable).map fun t => t.id := by
        intro hmem
        obtain ⟨t', ht', htid⟩ := List.mem_map.mp hmem
        obtain ⟨ht'm, ht's⟩ := List.mem_filter.mp ht'
        have : t' = t := id_inj hnd ht'm ht htid
        rw [this] at ht's
        exact hr ht's
      simp [restartFix, hmem, hr]
  have hT' : (restartOp s).1.tm.tasks
      = s.tm.tasks.map fun t => if restartable t then resetTask t else t := by
    unfold restartOp
    dsimp only
    rw [hT]
    exact List.map_congr_left hiff
  refine ⟨hT', ?_, ?_, fun t => ⟨rfl, rfl, rfl, rfl⟩, ?_⟩
  · unfold restartOp
    dsimp only
    rw [hQ]
    simp
  · unfold restartOp
    dsimp only
    rw [List.length_map]
  · intro t ht hr
    rw [hT']
    have : (if restartable t then resetTask t else t) = t := by simp [hr]
    exact List.mem_map.mpr ⟨t, ht, this⟩

/-- The server state holding one failed task, used as the C6 witness. -/
def sErr : ServerState := runOps [Op.batch [itA], Op.admitStep, Op.close "A" (some 1) 0]

/-- Witness for C6 at the concrete one-failed-task state `sErr`. -/
theorem c6_restart_witness :
    (restartOp sErr).1.tm.tasks
      = sErr.tm.tasks.map fun t => if restartable t then resetTask t else t :=
  (c6_restart sErr (by decide)).1

/-! ## Claim C3: the reachable-state invariant machinery -/

/-- The per-task part of the registry invariant that actually holds. -/
def taskInv (t : DownloadTask) : Prop :=
  (t.status = TStatus.completed → t.progress = 100)
  ∧ (t.status = TStatus.error → t.error.isSome = true)
  ∧ t.status ≠ TStatus.cancelled

/-- Auxiliary invariant: a task with an attached service is never
`completed` (the terminal events detach the service in the same step). -/
def svcInv (s : ServerState) : Prop :=
  ∀ p ∈ s.services, ∀ t ∈ s.tm.tasks, t.id = p.1 → t.status ≠ TStatus.completed

/-- The inductive state invariant. -/
def stateInv (s : ServerState) : Prop :=
  (∀ t ∈ s.tm.tasks, taskInv t) ∧ svcInv s

/-- Membership in an updated registry: either an untouched task under a
different id, or the merged image of a task under the updated id. -/
lemma tmUpdateTask_mem {tm : TMState} {id : String} {u : TaskUpdate} {b : Bool}
    {t' : DownloadTask} (h : t' ∈ (tmUpdateTask tm id u b).tasks) :
    (t' ∈ tm.tasks ∧ t'.id ≠ id) ∨ ∃ t ∈ tm.tasks, t.id = id ∧ t' = applyUpd t u := by
  unfold tmUpdateTask at h
  split at h
  case h_1 hfind =>
    have habs : ∀ t ∈ tm.tasks, t.id ≠ id := by
      intro t ht
      have := List.find?_eq_none.mp hfind t ht
      simpa using this
    exact Or.inl ⟨h, habs t' h⟩
  case h_2 t0 hfind =>
    dsimp only at h
    have hmap : ∀ t'' : DownloadTask,
        t'' ∈ tm.tasks.map (fun t => if t.id = id then applyUpd t u else t) →
        (t'' ∈ tm.tasks ∧ t''.id ≠ id) ∨ ∃ t ∈ tm.tasks, t.id = id ∧ t'' = applyUpd t u := by
      intro t'' ht''
      obtain ⟨t, ht, heq⟩ := List.mem_map.mp ht''
      by_cases hid : t.id = id
      · exact Or.inr ⟨t, ht, hid, by rw [← heq, if_pos hid]⟩
      · rw [if_neg hid] at heq
        subst heq
        exact Or.inl ⟨ht, hid⟩
    split at h
    · exact hmap t' (List.mem_filter.mp h).1
    · split at h
      · exact hmap t' h
      · exact hmap t' h

/-- A status-free, error-free update keeps `taskInv` on a non-completed
task. -/
lemma taskInv_applyUpd_keep {t : DownloadTask} {u : TaskUpdate}
    (hs : u.status = none) (he : u.errorGiven = false)
    (hti : taskInv t) (hnc : t.status ≠ TStatus.completed) :
    taskInv (applyUpd t u) := by
  obtain ⟨h1, h2, h3⟩ := hti
  have hst : (applyUpd t u).status = t.status := by simp [applyUpd, hs]
  have her : (applyUpd t u).error = t.error := by simp [applyUpd, he]
  refine ⟨fun hc => ?_, fun hc => ?_, fun hc => ?_⟩
  · rw [hst] at hc
    exact absurd hc hnc
  · rw [hst] at hc
    rw [her]
    exact h2 hc
  · rw [hst] at hc
    exact h3 hc

/-- An update to a status that is neither `completed`, `error` nor
`cancelled` always satisfies `taskInv`. -/
lemma taskInv_applyUpd_status {t : DownloadTask} {u : TaskUpdate} {st0 : TStatus}
    (hs : u.status = some st0) (h1 : st0 ≠ TStatus.completed)
    (h2 : st0 ≠ TStatus.error) (h3 : st0 ≠ TStatus.cancelled) :
    taskInv (applyUpd t u) := by
  have hst : (applyUpd t u).status = st0 := applyUpd_status_of_some hs t
  refine ⟨fun hc => ?_, fun hc => ?_, fun hc => ?_⟩
  · rw [hst] at hc
    exact absurd hc h1
  · rw [hst] at hc
    exact absurd hc h2
  · rw [hst] at hc
    exact absurd hc h3

/-- The completion update of the `complete` listener satisfies `taskInv`. -/
lemma taskInv_applyUpd_complete {t : DownloadTask} {now : Nat} :
    taskInv (applyUpd t (completeUpd now)) := by
  refine ⟨fun _ => rfl, fun hc => ?_, fun hc => ?_⟩ <;>
    simp [applyUpd, completeUpd, emptyUpd] at hc

/-- The failure update of the `error` listener satisfies `taskInv`. -/
lemma taskInv_applyUpd_error {t : DownloadTask} {m : String} :
    taskInv (applyUpd t (errorUpd m)) := by
  refine ⟨fun hc => ?_, fun _ => rfl, fun hc => ?_⟩ <;>
    simp [applyUpd, errorUpd, emptyUpd] at hc

/-- One supervisor event preserves the invariant, and every event except
`complete` also preserves the admission guard for the job's id. -/
lemma applyGEvent_inv {s : ServerState} {id : String} {now : Nat} {e : GEvent}
    (h : stateInv s)
    (hg : ∀ t ∈ s.tm.tasks, t.id = id → t.status ≠ TStatus.completed) :
    stateInv (applyGEvent s id now e)
    ∧ (e ≠ GEvent.complete →
        ∀ t ∈ (applyGEvent s id now e).tm.tasks, t.id = id →
          t.status ≠ TStatus.completed) := by
  obtain ⟨hT, hS⟩ := h
  cases e with
  | progress p =>
      refine ⟨⟨?_, ?_⟩, ?_⟩
      · intro t' ht'
        rcases tmUpdateTask_mem ht' with ⟨h1, _⟩ | ⟨t, ht, hid, heq⟩
        · exact hT t' h1
        · subst heq
          exact taskInv_applyUpd_keep rfl rfl (hT t ht) (hg t ht hid)
      · intro q hq t' ht' hid'
        rcases tmUpdateTask_mem ht' with ⟨h1, _⟩ | ⟨t, ht, hid, heq⟩
        · exact hS q hq t' h1 hid'
        · subst heq
          have hst : (applyUpd t (progressUpd p)).status = t.status := rfl
          have hid2 : (applyUpd t (progressUpd p)).id = t.id := rfl
          rw [hst]
          rw [hid2] at hid'
          exact hS q hq t ht hid'
      · intro _ t' ht' hid'
        rcases tmUpdateTask_mem ht' with ⟨h1, _⟩ | ⟨t, ht, hid, heq⟩
        · exact hg t' h1 hid'
        · subst heq
          have hst : (applyUpd t (progressUpd p)).status = t.status := rfl
          rw [hst]
          exact hg t ht hid
  | warning w =>
      exact ⟨⟨hT, hS⟩, fun _ => hg⟩
  | complete =>
      refine ⟨⟨?_, ?_⟩, fun hne => absurd rfl hne⟩
      · intro t' ht'
        rcases tmUpdateTask_mem ht' with ⟨h1, _⟩ | ⟨t, ht, hid, heq⟩
        · exact hT t' h1
        · subst heq
          exact taskInv_applyUpd_complete
      · intro q hq t' ht' hid'
        have hq2 := List.mem_filter.mp hq
        rcases tmUpdateTask_mem ht' with ⟨h1, _⟩ | ⟨t, ht, hid, heq⟩
        · exact hS q hq2.1 t' h1 hid'
        · subst heq
          exfalso
          have hq3 : q.1 ≠ id := by simpa using hq2.2
          have hid2 : (applyUpd t (completeUpd now)).id = t.id := rfl
          rw [hid2, hid] at hid'
          exact hq3 hid'.symm
  | error m =>
      refine ⟨⟨?_, ?_⟩, ?_⟩
      · intro t' ht'
        rcases tmUpdateTask_mem ht' with ⟨h1, _⟩ | ⟨t, ht, hid, heq⟩
        · exact hT t' h1
        · subst heq
          exact taskInv_applyUpd_error
      · intro q hq t' ht' hid'
        have hq2 := List.mem_filter.mp hq
        rcases tmUpdateTask_mem ht' with ⟨h1, _⟩ | ⟨t, ht, hid, heq⟩
        · exact hS q hq2.1 t' h1 hid'
        · subst heq
          exfalso
          have hq3 : q.1 ≠ id := by simpa using hq2.2
          have hid2 : (applyUpd t (errorUpd m)).id = t.id := rfl
          rw [hid2, hid] at hid'
          exact hq3 hid'.symm
      · intro _ t' ht' hid'
        rcases tmUpdateTask_mem ht' with ⟨h1, _⟩ | ⟨t, ht, hid, heq⟩
        · exact hg t' h1 hid'
        · subst heq
          have hst : (applyUpd t (errorUpd m)).status = TStatus.error := rfl
          rw [hst]
          simp

/-- A sequence of supervisor events in which `complete` occurs at most as
the last element preserves the invariant. -/
lemma applyGEvents_inv (evs : List GEvent) (s : ServerState) (id : String) (now : Nat)
    (h : stateInv s)
    (hg : ∀ t ∈ s.tm.tasks, t.id = id → t.status ≠ TStatus.completed)
    (hshape : ∀ e ∈ evs.dropLast, e ≠ GEvent.complete) :
    stateInv (applyGEvents s id now evs) := by
  induction evs generalizing s with
  | nil => exact h
  | cons e es ih =>
      rcases es with _ | ⟨e2, es2⟩
      · exact (applyGEvent_inv h hg).1
      · have he : e ≠ GEvent.complete := hshape e (by simp [List.dropLast])
        obtain ⟨h1, h2⟩ := applyGEvent_inv (e := e) h hg
        exact ih _ h1 (h2 he)
          (fun e' he' => hshape e' (List.mem_cons_of_mem e he'))

lemma mem_ite_singleton {α : Type} {c : Prop} [Decidable c] {a e : α}
    (h : e ∈ (if c then [a] else [])) : e = a := by
  split at h
  · simpa using h
  · simp at h

lemma mem_ite_ite_singleton {α : Type} {c1 c2 : Prop} [Decidable c1] [Decidable c2]
    {a b e : α} (h : e ∈ (if c1 then [a] else if c2 then [b] else [])) :
    e = a ∨ e = b := by
  split at h
  · exact Or.inl (by simpa using h)
  · split at h
    · exact Or.inr (by simpa using h)
    · simp at h

/-- Successful lookup implies membership in the association list. -/
lemma mem_of_lookup_eq_some {beta : Type} {l : List (String × beta)} {k : String}
    {v : beta} (h : l.lookup k = some v) : (k, v) ∈ l := by
  induction l with
  | nil => simp [List.lookup] at h
  | cons p l ih =>
      obtain ⟨a, b⟩ := p
      rw [List.lookup] at h
      by_cases hk : k = a
      · subst hk
        simp only [beq_self_eq_true, if_pos] at h
        have hv : b = v := Option.some.inj h
        subst hv
        simp
      · have hb : (k == a) = false := beq_false_of_ne hk
        rw [hb] at h
        simp only [List.mem_cons]
        exact Or.inr (ih h)

/-- The stdout/stderr handlers never emit `complete`. -/
lemma stepChunk_no_complete (g : GdownState) (c : Chunk) :
    ∀ e ∈ (stepChunk g c).2, e ≠ GEvent.complete := by
  intro e he
  cases c with
  | out c =>
      unfold stepChunk handleStdout at he
      dsimp only at he
      split at he
      · simp only [List.mem_singleton] at he
        subst he
        simp
      · simp at he
  | err c =>
      unfold stepChunk handleStderr at he
      dsimp only at he
      rcases List.mem_append.mp he with h1 | h1
      · have := mem_ite_singleton h1
        subst this
        simp
      · rcases mem_ite_ite_singleton h1 with h2 | h2 <;>
          · subst h2
            simp

/-- The close handler emits `complete` only as the last event. -/
lemma handleClose_shape (st : GdownState) (code : Option Int) :
    ∀ e ∈ (handleClose st code).dropLast, e ≠ GEvent.complete := by
  intro e he
  cases code with
  | none => simp [handleClose] at he
  | some c =>
      unfold handleClose at he
      dsimp only at he
      split at he
      · simp only [List.dropLast, List.mem_singleton] at he
        subst he
        simp
      · simp only [List.dropLast, List.mem_singleton] at he
        subst he
        simp

/-- Batch submission preserves the state invariant. -/
lemma stateInv_batch (items : List BatchItem) (s : ServerState) (h : stateInv s) :
    stateInv (batchOp s items) := by
  induction items generalizing s with
  | nil => exact h
  | cons it its ih =>
      apply ih
      obtain ⟨hT, hS⟩ := h
      constructor
      · intro t' ht'
        rcases mem_mapSet ht' with h1 | h1
        · exact hT t' h1
        · subst h1
          refine ⟨fun hc => ?_, fun hc => ?_, fun hc => ?_⟩ <;> simp at hc
      · intro q hq t' ht' hid'
        rcases mem_mapSet ht' with h1 | h1
        · exact hS q hq t' h1 hid'
        · subst h1
          intro hc
          simp at hc

/-- Admission preserves the state invariant. -/
lemma stateInv_admitStep (s : ServerState) (h : stateInv s) : stateInv (admitOp s) := by
  obtain ⟨hT, hS⟩ := h
  unfold admitOp
  split
  · exact ⟨hT, hS⟩
  · split
    · exact ⟨hT, hS⟩
    next t hfind =>
      split
      · exact ⟨hT, hS⟩
      · split
        · exact ⟨hT, hS⟩
        · constructor
          · intro t' ht'
            rcases tmUpdateTask_mem ht' with ⟨h1, _⟩ | ⟨t2, ht2, hid2, heq⟩
            · exact hT t' h1
            · subst heq
              exact taskInv_applyUpd_status rfl (by decide) (by decide) (by decide)
          · intro q hq2 t' ht' hid'
            rcases List.mem_append.mp hq2 with hqo | hqn
            · rcases tmUpdateTask_mem ht' with ⟨h1, _⟩ | ⟨t2, ht2, hid2, heq⟩
              · exact hS q hqo t' h1 hid'
              · subst heq
                have hst : (applyUpd t2 admitUpd).status = TStatus.downloading := rfl
                rw [hst]
                simp
            · simp only [List.mem_singleton] at hqn
              subst hqn
              rcases tmUpdateTask_mem ht' with ⟨h1, hne⟩ | ⟨t2, ht2, hid2, heq⟩
              · exact absurd hid' hne
              · subst heq
                have hst : (applyUpd t2 admitUpd).status = TStatus.downloading := rfl
                rw [hst]
                simp

/-- Output chunks preserve the state invariant. -/
lemma stateInv_chunk (s : ServerState) (id : String) (c : Chunk) (h : stateInv s) :
    stateInv (chunkOp s id c) := by
  obtain ⟨hT, hS⟩ := h
  unfold chunkOp
  split
  · exact ⟨hT, hS⟩
  next g hl =>
    refine applyGEvents_inv _ _ _ _ ⟨?_, ?_⟩ ?_ ?_
    · exact hT
    · intro q hq t' ht' hid'
      obtain ⟨p0, hp0, heq⟩ := List.mem_map.mp hq
      have hfst : q.1 = p0.1 := by
        rw [← heq]
        by_cases h1 : p0.1 = id <;> simp [h1]
      exact hS p0 hp0 t' ht' (hfst ▸ hid')
    · intro t ht hid2
      exact hS (id, g) (mem_of_lookup_eq_some hl) t ht hid2
    · intro e he
      exact stepChunk_no_complete g c e ((List.dropLast_sublist _).subset he)

/-- Process exit preserves the state invariant. -/
lemma stateInv_close (s : ServerState) (id : String) (code : Option Int) (now : Nat)
    (h : stateInv s) : stateInv (closeOp s id code now) := by
  obtain ⟨hT, hS⟩ := h
  unfold closeOp
  split
  · exact ⟨hT, hS⟩
  next g hl =>
    exact applyGEvents_inv _ s id now ⟨hT, hS⟩
      (fun t ht hid2 => hS (id, g) (mem_of_lookup_eq_some hl) t ht hid2)
      (handleClose_shape g code)

/-- The cancel route preserves the state invariant. -/
lemma stateInv_cancel (s : ServerState) (h : stateInv s) : stateInv (cancelOp s) := by
  obtain ⟨hT, hS⟩ := h
  unfold cancelOp
  split
  · exact ⟨hT, hS⟩
  · constructor
    · intro t' ht'
      dsimp only at ht'
      rw [cancel_fold] at ht'
      exact hT t' (List.mem_filter.mp ht').1
    · intro q hq
      simp at hq

/-- The restart fold leaves the services untouched. -/
lemma restart_fold_services (ids : List String) (s : ServerState) :
    ((ids.foldl
      (fun st i =>
        { st with tm := tmUpdateTask st.tm i restartUpd true, queue := st.queue ++ [i] })
      s)).services = s.services := by
  induction ids generalizing s with
  | nil => rfl
  | cons i ids ih =>
      rw [List.foldl_cons]
      exact ih _

/-- The restart route preserves the state invariant. -/
lemma stateInv_restart (s : ServerState) (h : stateInv s) : stateInv (restartOp s).1 := by
  obtain ⟨hT, hS⟩ := h
  have hpres : ∀ i ∈ (s.tm.tasks.filter restartable).map fun t => t.id,
      ∃ t ∈ s.tm.tasks, t.id = i := by
    intro i hi
    obtain ⟨t, ht, hti⟩ := List.mem_map.mp hi
    exact ⟨t, (List.mem_filter.mp ht).1, hti⟩
  obtain ⟨hTasks, _⟩ := restart_fold ((s.tm.tasks.filter restartable).map fun t => t.id)
    ({ s with services := [], queue := [], active := [] } : ServerState) hpres
  constructor
  · intro t' ht'
    unfold restartOp at ht'
    dsimp only at ht'
    rw [hTasks] at ht'
    obtain ⟨t, ht, heq⟩ := List.mem_map.mp ht'
    subst heq
    unfold restartFix
    split
    · refine ⟨fun hc => ?_, fun hc => ?_, fun hc => ?_⟩ <;> simp [resetTask] at hc
    · exact hT t ht
  · intro q hq
    unfold restartOp at hq
    dsimp only at hq
    rw [restart_fold_services] at hq
    simp at hq

/-- Task deletion preserves the state invariant. -/
lemma stateInv_delete (s : ServerState) (id : String) (h : stateInv s) :
    stateInv (deleteOp s id) := by
  obtain ⟨hT, hS⟩ := h
  unfold deleteOp tmDeleteTask
  split
  · constructor
    · intro t' ht'
      exact hT t' (List.mem_filter.mp ht').1
    · intro q hq t' ht' hid'
      exact hS q hq t' (List.mem_filter.mp ht').1 hid'
  · exact ⟨hT, hS⟩

/-- Each operation preserves the state invariant. -/
lemma stateInv_applyOp (s : ServerState) (op : Op) (h : stateInv s) :
    stateInv (applyOp s op) := by
  cases op with
  | batch items => exact stateInv_batch items s h
  | admitStep => exact stateInv_admitStep s h
  | chunk id c => exact stateInv_chunk s id c h
  | close id code now => exact stateInv_close s id code now h
  | cancel => exact stateInv_cancel s h
  | restart => exact stateInv_restart s h
  | delete id => exact stateInv_delete s id h

/-- The invariant holds in every state reachable from startup. -/
lemma stateInv_runOps (ops : List Op) : stateInv (runOps ops) := by
  have key : ∀ (s : ServerState), stateInv s → stateInv (ops.foldl applyOp s) := by
    induction ops with
    | nil =>
        intro s h
        exact h
    | cons op ops ih =>
        intro s h
        rw [List.foldl_cons]
        exact ih _ (stateInv_applyOp s op h)
  refine key initServer ⟨?_, ?_⟩
  · intro t ht
    simp [initServer, initTM] at ht
  · intro p hp
    simp [initServer] at hp

/-- The reachable state in which a skipped-file stderr event pushed a
`downloading` task's progress to 100. -/
def sSkip : ServerState :=
  runOps [Op.batch [itA], Op.admitStep, Op.chunk "A" (Chunk.err skipChunk)]

/-- The reachable state in which a failed task kept its error while being
re-admitted to `downloading` from a duplicate queue entry. -/
def sDouble : ServerState :=
  runOps [Op.batch [itA, itA], Op.admitStep, Op.close "A" (some 1) 0, Op.admitStep]

/-- Claim C3, as stated, is false on two counts.  (1) `progressPercent ==
100` does not imply `completed`: in the reachable state `sSkip` a
skipped-file stderr event emitted `round(1/1*100) = 100` and the progress
listener stored it while the task is still `downloading`.  (2) `lastError`
present does not imply `failed`: in `sDouble` a task submitted twice
failed once (recording its error) and its duplicate queue entry was then
admitted, setting `downloading` without clearing the error.  Moreover the
cancel route's update does attach an error value to the task it
transitions to `cancelled` (before the record's immediate deletion). -/
theorem c3_counterexample :
    (sSkip.tm.tasks.map (fun t => (t.status, t.progress))
        = [(TStatus.downloading, 100)])
    ∧ (sDouble.tm.tasks.map (fun t => (t.status, t.error.isSome))
        = [(TStatus.downloading, true)])
    ∧ cancelUpd.error = some "Download cancelled by user"
    ∧ cancelUpd.status = some TStatus.cancelled := by
  exact ⟨by decide, by decide, rfl, rfl⟩

/-- Claim C3 (amended): in every registry state reachable from startup, a
`completed` task has `progressPercent = 100`, a `failed` task carries
`lastError`, and no state contains a `cancelled` task (the cancel
transition deletes the record in the same step, though the transition
itself records a cancellation message).  The converse directions of the
claimed iffs are false (see the counterexample). -/
theorem c3_invariant (ops : List Op) :
    ∀ t ∈ (runOps ops).tm.tasks,
      (t.status = TStatus.completed → t.progress = 100)
      ∧ (t.status = TStatus.error → t.error.isSome = true)
      ∧ t.status ≠ TStatus.cancelled :=
  (stateInv_runOps ops).1

/-- The freshly created pending task of a batch submission. -/
def pendingTaskA : DownloadTask :=
  { id := "A", url := "u", outputDir := "d", status := TStatus.pending
    progress := 0, currentFile := "", createdAt := 0, completedAt := none
    error := none }

/-- Witness for C3 (amended) at a concrete reachable state and task. -/
theorem c3_invariant_witness :
    (pendingTaskA.status = TStatus.completed → pendingTaskA.progress = 100)
    ∧ (pendingTaskA.status = TStatus.error → pendingTaskA.error.isSome = true)
    ∧ pendingTaskA.status ≠ TStatus.cancelled :=
  c3_invariant [Op.batch [itA]] pendingTaskA (by decide)

end GDD
